import Mathlib

/-!
Verification of the OAuth token-generator server (`server.js`)

A shallow embedding of the validation core of the repository's `server.js`:

* the shop-identifier validator `isValidShop` (the regex test at line 39),
* the constant-time comparison `safeCompare` (lines 43-48),
* the canonical message builder `buildHmacMessage` (lines 50-61),
* the request authenticator `verifyHmac` (lines 63-88),
* the in-memory state registry (`stateStore`, lines 26-37) with its sweep,
* the `/install` handler (lines 91-110) and the `/auth/callback` handler
  (lines 113-135, up to the external token-exchange call).

Machine integers are modelled as `Nat` with explicit truncation where Node's
32-bit SHA-256 arithmetic overflows.  Express query parameters are strings or
arrays of strings (`JsVal`).  The one fallible primitive,
`crypto.timingSafeEqual` (which throws on buffers of unequal length), is
modelled with `Except`; everything else is total, as in the source.
HMAC-SHA-256 is implemented concretely (FIPS 180-4 / RFC 2104) so that every
definition is executable and every theorem can be checked on concrete inputs.
-/

/-! ## Bytes, UTF-8 and hex -/

/-- Truncation to a 32-bit word, the implicit arithmetic of Node's SHA-256. -/
def w32 (n : Nat) : Nat := n % 4294967296

/-- UTF-8 encoding of a single character (scalar values only, as in Lean's
`Char`), as its list of bytes. -/
def utf8Char (c : Char) : List Nat :=
  let n := c.toNat
  if n < 0x80 then [n]
  else if n < 0x800 then [0xC0 ||| (n >>> 6), 0x80 ||| (n &&& 0x3F)]
  else if n < 0x10000 then
    [0xE0 ||| (n >>> 12), 0x80 ||| ((n >>> 6) &&& 0x3F), 0x80 ||| (n &&& 0x3F)]
  else
    [0xF0 ||| (n >>> 18), 0x80 ||| ((n >>> 12) &&& 0x3F),
     0x80 ||| ((n >>> 6) &&& 0x3F), 0x80 ||| (n &&& 0x3F)]

/-- UTF-8 byte sequence of a string: what `Buffer.from(s, 'utf-8')` holds. -/
def utf8 (s : String) : List Nat := (s.toList.map utf8Char).flatten

/-- Lowercase hex digit, for `digest('hex')`. -/
def hexDigit (n : Nat) : Char := ("0123456789abcdef".toList).getD n '0'

/-- Lowercase hex rendering of a byte list, as `Buffer#toString('hex')`. -/
def toHex (bytes : List Nat) : String :=
  String.mk (bytes.foldr (fun b acc => hexDigit (b >>> 4) :: hexDigit (b &&& 0xF) :: acc) [])

/-- Uppercase hex digit, for percent-escapes of `encodeURIComponent`. -/
def hexDigitUpper (n : Nat) : Char := ("0123456789ABCDEF".toList).getD n '0'

/-- Characters `encodeURIComponent` leaves unescaped:
`A-Z a-z 0-9 - _ . ! ~ * ' ( )`. -/
def uriUnreserved (c : Char) : Bool :=
  c.isAlpha || c.isDigit || c == '-' || c == '_' || c == '.' || c == '!' ||
    c == '~' || c == '*' || c == Char.ofNat 39 || c == '(' || c == ')'

/-- JavaScript's `encodeURIComponent`: unreserved characters pass through,
every other character is replaced by the `%XX` escapes of its UTF-8 bytes. -/
def encodeURIComponent (s : String) : String :=
  String.mk (s.toList.flatMap fun c =>
    if uriUnreserved c then [c]
    else (utf8Char c).flatMap fun b => ['%', hexDigitUpper (b >>> 4), hexDigitUpper (b &&& 0xF)])

/-! ## SHA-256 and HMAC (the `crypto.createHmac('sha256', …)` pipeline) -/

/-- The 64 SHA-256 round constants K (FIPS 180-4 §4.2.2: the first 32 bits of
the fractional parts of the cube roots of the first 64 primes), in rounds
0-7, 8-15, …, 56-63. -/
def sha256K : List Nat :=
  [0x428a2f98, 0x71374491, 0xb5c0fbcf, 0xe9b5dba5,
   0x3956c25b, 0x59f111f1, 0x923f82a4, 0xab1c5ed5] ++
  [0xd807aa98, 0x12835b01, 0x243185be, 0x550c7dc3,
   0x72be5d74, 0x80deb1fe, 0x9bdc06a7, 0xc19bf174] ++
  [0xe49b69c1, 0xefbe4786, 0x0fc19dc6, 0x240ca1cc,
   0x2de92c6f, 0x4a7484aa, 0x5cb0a9dc, 0x76f988da] ++
  [0x983e5152, 0xa831c66d, 0xb00327c8, 0xbf597fc7,
   0xc6e00bf3, 0xd5a79147, 0x06ca6351, 0x14292967] ++
  [0x27b70a85, 0x2e1b2138, 0x4d2c6dfc, 0x53380d13,
   0x650a7354, 0x766a0abb, 0x81c2c92e, 0x92722c85] ++
  [0xa2bfe8a1, 0xa81a664b, 0xc24b8b70, 0xc76c51a3,
   0xd192e819, 0xd6990624, 0xf40e3585, 0x106aa070] ++
  [0x19a4c116, 0x1e376c08, 0x2748774c, 0x34b0bcb5,
   0x391c0cb3, 0x4ed8aa4a, 0x5b9cca4f, 0x682e6ff3] ++
  [0x748f82ee, 0x78a5636f, 0x84c87814, 0x8cc70208,
   0x90befffa, 0xa4506ceb, 0xbef9a3f7, 0xc67178f2]

/-- The SHA-256 initial hash value H⁽⁰⁾ (FIPS 180-4 §5.3.3: the first 32 bits
of the fractional parts of the square roots of the first 8 primes). -/
def sha256H0 : List Nat :=
  [0x6a09e667, 0xbb67ae85, 0x3c6ef372, 0xa54ff53a] ++
  [0x510e527f, 0x9b05688c, 0x1f83d9ab, 0x5be0cd19]

/-- Rotate a 32-bit word right by `n`. -/
def rotr (n x : Nat) : Nat := ((x >>> n) ||| (x <<< (32 - n))) &&& 0xFFFFFFFF

def bigSigma0 (x : Nat) : Nat := rotr 2 x ^^^ rotr 13 x ^^^ rotr 22 x

def bigSigma1 (x : Nat) : Nat := rotr 6 x ^^^ rotr 11 x ^^^ rotr 25 x

def smallSigma0 (x : Nat) : Nat := rotr 7 x ^^^ rotr 18 x ^^^ (x >>> 3)

def smallSigma1 (x : Nat) : Nat := rotr 17 x ^^^ rotr 19 x ^^^ (x >>> 10)

/-- SHA-256 padding: append `0x80`, zeros, and the 64-bit big-endian bit length,
reaching a multiple of 64 bytes. -/
def sha256Pad (msg : List Nat) : List Nat :=
  let L := msg.length
  let k := (64 - ((L + 9) % 64)) % 64
  let bits := L * 8
  msg ++ [0x80] ++ List.replicate k 0 ++
    [(bits >>> 56) &&& 0xFF, (bits >>> 48) &&& 0xFF, (bits >>> 40) &&& 0xFF,
     (bits >>> 32) &&& 0xFF, (bits >>> 24) &&& 0xFF, (bits >>> 16) &&& 0xFF,
     (bits >>> 8) &&& 0xFF, bits &&& 0xFF]

/-- Big-endian 4-byte groups to 32-bit words. -/
def bytesToWords : List Nat → List Nat
  | b0 :: b1 :: b2 :: b3 :: rest =>
    (b0 <<< 24 ||| b1 <<< 16 ||| b2 <<< 8 ||| b3) :: bytesToWords rest
  | _ => []

/-- Split into 64-byte blocks; the fuel argument (an upper bound on the number
of blocks) makes the recursion structural. -/
def chunk64Go : Nat → List Nat → List (List Nat)
  | 0, _ => []
  | _, [] => []
  | fuel + 1, l => l.take 64 :: chunk64Go fuel (l.drop 64)

def chunk64 (l : List Nat) : List (List Nat) := chunk64Go l.length l

/-- One step of the SHA-256 message-schedule extension. -/
def scheduleStep (w : List Nat) : List Nat :=
  let n := w.length
  w ++ [w32 (smallSigma1 (w.getD (n - 2) 0) + w.getD (n - 7) 0 +
             smallSigma0 (w.getD (n - 15) 0) + w.getD (n - 16) 0)]

/-- Extend the 16 block words to the 64 schedule words W. -/
def schedule (block : List Nat) : List Nat :=
  (List.range 48).foldl (fun w _ => scheduleStep w) block

/-- One SHA-256 compression round on the working variables. -/
def roundStep (st : Nat × Nat × Nat × Nat × Nat × Nat × Nat × Nat) (kw : Nat × Nat) :
    Nat × Nat × Nat × Nat × Nat × Nat × Nat × Nat :=
  let (a, b, c, d, e, f, g, h) := st
  let (k, w) := kw
  let ch := (e &&& f) ^^^ ((0xFFFFFFFF ^^^ e) &&& g)
  let maj := (a &&& b) ^^^ (a &&& c) ^^^ (b &&& c)
  let t1 := w32 (h + bigSigma1 e + ch + k + w)
  let t2 := w32 (bigSigma0 a + maj)
  (w32 (t1 + t2), a, b, c, w32 (d + t1), e, f, g)

/-- SHA-256 compression of one 64-byte block into the running hash. -/
def compress (H : List Nat) (block : List Nat) : List Nat :=
  let W := schedule (bytesToWords block)
  let init := (H.getD 0 0, H.getD 1 0, H.getD 2 0, H.getD 3 0,
               H.getD 4 0, H.getD 5 0, H.getD 6 0, H.getD 7 0)
  let (a, b, c, d, e, f, g, h) := (sha256K.zip W).foldl roundStep init
  [w32 (H.getD 0 0 + a), w32 (H.getD 1 0 + b), w32 (H.getD 2 0 + c), w32 (H.getD 3 0 + d),
   w32 (H.getD 4 0 + e), w32 (H.getD 5 0 + f), w32 (H.getD 6 0 + g), w32 (H.getD 7 0 + h)]

/-- 32-bit words back to big-endian bytes. -/
def wordsToBytes : List Nat → List Nat
  | [] => []
  | w :: rest =>
    ((w >>> 24) &&& 0xFF) :: ((w >>> 16) &&& 0xFF) :: ((w >>> 8) &&& 0xFF) :: (w &&& 0xFF) ::
      wordsToBytes rest

/-- SHA-256 of a byte list (FIPS 180-4). -/
def sha256 (msg : List Nat) : List Nat :=
  wordsToBytes ((chunk64 (sha256Pad msg)).foldl compress sha256H0)

/-- HMAC-SHA-256 over byte lists (RFC 2104), as Node's `crypto.createHmac`. -/
def hmacSha256 (key msg : List Nat) : List Nat :=
  let k0 := if 64 < key.length then sha256 key else key
  let kp := k0 ++ List.replicate (64 - k0.length) 0
  sha256 ((kp.map (· ^^^ 0x5c)) ++ sha256 ((kp.map (· ^^^ 0x36)) ++ msg))

/-- `crypto.createHmac('sha256', secret).update(message, 'utf-8').digest('hex')`. -/
def hmacSha256Hex (secret message : String) : String :=
  toHex (hmacSha256 (utf8 secret) (utf8 message))

/-! ## Express query values

An Express query maps parameter names to strings or arrays of strings; the
handlers read it as a JavaScript object (unique keys, insertion order). -/

/-- A query-parameter value: a string, or an array of strings. -/
inductive JsVal where
  | str : String → JsVal
  | arr : List String → JsVal
deriving DecidableEq, Repr

/-- JavaScript truthiness of a query value: only the empty string is falsy
(an array, even an empty one, is an object and hence truthy). -/
def truthy : JsVal → Bool
  | .str s => s ≠ ""
  | .arr _ => true

/-- Truthiness of a possibly-absent value: `undefined` is falsy. -/
def truthyO : Option JsVal → Bool
  | none => false
  | some v => truthy v

/-- JavaScript `String(v)` coercion: arrays join their elements with commas. -/
def jsToString : JsVal → String
  | .str s => s
  | .arr l => String.intercalate "," l

/-- Property access on the query object (`query[key]`, `const { key } = query`).
The object has unique keys; on the list representation the first binding wins. -/
def jsLookup (key : String) (query : List (String × JsVal)) : Option JsVal :=
  (query.find? fun p => p.1 == key).map (·.2)

/-- JavaScript `Number(s)` coercion followed by `Buffer.from`'s truncation of an
array element to a byte: nonnegative decimal integers are taken mod 256, and
everything else (whitespace-only is 0, non-numeric is NaN) becomes 0. -/
def jsStringToByte (s : String) : Nat := (s.trim.toNat?.getD 0) % 256

/-- `Buffer.from(v, 'utf-8')`: a string yields its UTF-8 bytes; an array is
taken as an array of byte values, each element coerced to a number. -/
def bufferFrom : JsVal → List Nat
  | .str s => utf8 s
  | .arr l => l.map jsStringToByte

/-! ## The validation core of `server.js` -/

/-- `[a-zA-Z0-9]`. -/
def isAlnum (c : Char) : Bool := c.isAlpha || c.isDigit

/-- The fixed domain suffix of the shop regex. -/
def shopSuffix : List Char := ".myshopify.com".toList

/-- Matcher for `[a-zA-Z0-9\-]*\.myshopify\.com$`: either the rest is exactly
the literal suffix, or consume one alphanumeric-or-hyphen character. -/
def shopTail (l : List Char) : Bool :=
  if l = shopSuffix then true
  else
    match l with
    | [] => false
    | c :: cs => (isAlnum c || c == '-') && shopTail cs

/-- The anchored regex match on the character list: one leading alphanumeric
character, then `shopTail`. -/
def isValidShopList : List Char → Bool
  | [] => false
  | c :: cs => isAlnum c && shopTail cs

/-- `isValidShop` (line 39): the regex test
`/^[a-zA-Z0-9][a-zA-Z0-9\-]*\.myshopify\.com$/.test(shop)`. -/
def isValidShop (shop : String) : Bool := isValidShopList shop.toList

/-- `crypto.timingSafeEqual` compares two buffers in constant time; it throws
when their lengths differ (modelled as `Except.error`), and otherwise reports
whether the byte contents are equal. -/
def timingSafeEqual (a b : List Nat) : Except String Bool :=
  if a.length = b.length then .ok (decide (a = b))
  else .error "Input buffers must have the same byte length"

/-- `safeCompare` (lines 43-48): build the two buffers, return `false` when the
lengths differ, and only then call `crypto.timingSafeEqual`. -/
def safeCompare (a b : JsVal) : Except String Bool :=
  let bufA := bufferFrom a
  let bufB := bufferFrom b
  if bufA.length ≠ bufB.length then .ok false
  else timingSafeEqual bufA bufB

/-- The comma-join a value undergoes in `buildHmacMessage`
(`Array.isArray(v) ? v.join(',') : v`). -/
def flattenVal : JsVal → String
  | .str s => s
  | .arr l => String.intercalate "," l

/-- UTF-16 code-unit lexicographic order on character lists: the comparison the
default `Array.prototype.sort()` applies to strings (identical to code-point
order on the characters appearing in query keys). -/
def lexLe : List Char → List Char → Bool
  | [], _ => true
  | _ :: _, [] => false
  | a :: as, b :: bs =>
    if a.toNat < b.toNat then true
    else if b.toNat < a.toNat then false
    else lexLe as bs

/-- The sort order of `Object.keys(rest).sort()`, as a binary relation. -/
def keyLE (a b : String) : Prop := lexLe a.toList b.toList = true

instance : DecidableRel keyLE := fun a b => instDecidableEqBool (lexLe a.toList b.toList) true

/-- `buildHmacMessage` (lines 50-61): drop the `hmac` and `signature` fields,
sort the remaining keys, comma-join array values, percent-encode each key and
value, and join `key=value` pairs with `&`. -/
def buildHmacMessage (query : List (String × JsVal)) : String :=
  let rest := query.filter fun p => p.1 != "hmac" && p.1 != "signature"
  let keys := List.insertionSort keyLE (rest.map (·.1))
  String.intercalate "&" (keys.map fun key =>
    let value := match jsLookup key rest with
      | some v => flattenVal v
      | none => ""
    encodeURIComponent key ++ "=" ++ encodeURIComponent value)

/-- `keyLE` lifted to key/value pairs, comparing by key. -/
def pairKeyLE (a b : String × String) : Prop := keyLE a.1 b.1

instance : DecidableRel pairKeyLE := fun a b => inferInstanceAs (Decidable (keyLE a.1 b.1))

/-- The signed message as §4.2 of the spec words it (a second definition, for
comparison with `buildHmacMessage`): remove the signature fields, replace each
list value by its comma-join, sort the remaining pairs by key, and concatenate
`percentEncode(key)=percentEncode(value)` joined with `&`. -/
def specSignedMessage (query : List (String × JsVal)) : String :=
  let rest := query.filter fun p => p.1 != "hmac" && p.1 != "signature"
  let pairs := rest.map fun p => (p.1, flattenVal p.2)
  let sorted := List.insertionSort pairKeyLE pairs
  String.intercalate "&" (sorted.map fun p =>
    encodeURIComponent p.1 ++ "=" ++ encodeURIComponent p.2)

/-- Which path `verifyHmac` took: the early `return false` for a falsy `hmac`
(no hash computed, no comparison performed), the comparison mismatch `return
false`, or the successful `return true`. -/
inductive VerifyBranch where
  | missingHmac
  | mismatch
  | valid
deriving DecidableEq, Repr

/-- The body of `verifyHmac` once `hmac` has been read from the query: the
falsy check (`if (!hmac) return false`), then the comparison of the calculated
digest of the canonical message against the supplied value.  An exception from
`safeCompare` propagates. -/
def verifyCompare (secret : String) (query : List (String × JsVal)) (hmacVal : JsVal) :
    Except String (Bool × VerifyBranch) :=
  if truthy hmacVal then
    match safeCompare (.str (hmacSha256Hex secret (buildHmacMessage query))) hmacVal with
    | .error e => .error e
    | .ok true => .ok (true, .valid)
    | .ok false => .ok (false, .mismatch)
  else .ok (false, .missingHmac)

/-- `verifyHmac` (lines 63-88): read `hmac` from the query (`undefined` is
falsy, hence `return false`), then compare via `verifyCompare`. -/
def verifyHmacE (secret : String) (query : List (String × JsVal)) :
    Except String (Bool × VerifyBranch) :=
  match jsLookup "hmac" query with
  | none => .ok (false, .missingHmac)
  | some hmacVal => verifyCompare secret query hmacVal

/-! ## The state registry (`stateStore`, lines 26-37) -/

/-- `STATE_TTL_MS = 10 * 60 * 1000` (line 29). -/
def STATE_TTL_MS : Nat := 10 * 60 * 1000

/-- The in-memory `Map` from state token to creation timestamp (ms).  Keys are
unique, in insertion order. -/
abbrev StateStore := List (String × Nat)

/-- `stateStore.has(k)` for a string key. -/
def storeHas (st : StateStore) (k : String) : Bool := st.any fun p => p.1 == k

/-- `stateStore.set(k, v)`: replace the binding if the key exists, else append. -/
def storeSet (st : StateStore) (k : String) (v : Nat) : StateStore :=
  if storeHas st k then st.map fun p => if p.1 == k then (k, v) else p
  else st ++ [(k, v)]

/-- `stateStore.delete(k)` for a string key. -/
def storeDelete (st : StateStore) (k : String) : StateStore :=
  st.filter fun p => p.1 != k

/-- `stateStore.has(state)` with the raw query value: a `Map` keyed by strings
never `has` an array (object keys compare by reference). -/
def stateHas (st : StateStore) (v : JsVal) : Bool :=
  match v with
  | .str s => storeHas st s
  | .arr _ => false

/-- `stateStore.delete(state)` with the raw query value: deleting by an array
key removes nothing. -/
def stateDeleteVal (st : StateStore) (v : JsVal) : StateStore :=
  match v with
  | .str s => storeDelete st s
  | .arr _ => st

/-- The body of the `setInterval` sweep (lines 30-37): delete every entry whose
age exceeds `STATE_TTL_MS` (all stored timestamps are numbers in the model). -/
def sweep (now : Nat) (st : StateStore) : StateStore :=
  st.filter fun p => decide (now - p.2 ≤ STATE_TTL_MS)

/-! ## The HTTP handlers -/

/-- The `shop` gate shared by both handlers: `!shop || !isValidShop(shop)`
(the regex test coerces a non-string value to a string first). -/
def shopParamOk (q : Option JsVal) : Bool :=
  match q with
  | none => false
  | some v => truthy v && isValidShop (jsToString v)

/-- Outcome of `GET /install` (lines 91-110).  The construction of the
authorize redirect URL is routing plumbing and is not modelled beyond the shop
and the issued state. -/
inductive InstallResult where
  | invalidShop
  | redirected (shop state : String)
deriving DecidableEq, Repr

/-- `GET /install` (lines 91-110): validate `shop`, then record a fresh random
state token (`state`, supplied here as a parameter in place of
`crypto.randomBytes`) with the current time, and redirect. -/
def install (shopQ : Option JsVal) (state : String) (now : Nat) (st : StateStore) :
    InstallResult × StateStore :=
  if shopParamOk shopQ then
    (.redirected (jsToString (shopQ.getD (.str ""))) state, storeSet st state now)
  else (.invalidShop, st)

/-- The validation gates of `GET /auth/callback`, in source order, used to
record how far a request progressed. -/
inductive Gate where
  | shopGate
  | codeGate
  | stateGate
  | hmacGate
  | consumeState
deriving DecidableEq, Repr

/-- Outcome of `GET /auth/callback` (lines 113-135) up to the external token
exchange: each 400 response, a propagated exception, or `validated` (the
request passed every gate, the state token was consumed, and control moves to
the `fetch` of the token-exchange endpoint). -/
inductive CallbackResult where
  | invalidShop
  | missingCode
  | invalidState
  | hmacFailed
  | thrown (e : String)
  | validated (shop code : String)
deriving DecidableEq, Repr

/-- `GET /auth/callback` (lines 113-135): the four gates in source order —
shop validity, `code` presence, state presence in the registry, HMAC — and the
one-time deletion of the state token after the HMAC gate passes.  Returns the
outcome, the registry afterwards, and the list of gates that were evaluated. -/
def callback (secret : String) (query : List (String × JsVal)) (st : StateStore) :
    CallbackResult × StateStore × List Gate :=
  if !shopParamOk (jsLookup "shop" query) then (.invalidShop, st, [.shopGate])
  else if !truthyO (jsLookup "code" query) then (.missingCode, st, [.shopGate, .codeGate])
  else if !(truthyO (jsLookup "state" query) &&
      stateHas st ((jsLookup "state" query).getD (.str ""))) then
    (.invalidState, st, [.shopGate, .codeGate, .stateGate])
  else
    match verifyHmacE secret query with
    | .error e => (.thrown e, st, [.shopGate, .codeGate, .stateGate, .hmacGate])
    | .ok (false, _) => (.hmacFailed, st, [.shopGate, .codeGate, .stateGate, .hmacGate])
    | .ok (true, _) =>
      (.validated (jsToString ((jsLookup "shop" query).getD (.str "")))
        (jsToString ((jsLookup "code" query).getD (.str ""))),
       stateDeleteVal st ((jsLookup "state" query).getD (.str "")),
       [.shopGate, .codeGate, .stateGate, .hmacGate, .consumeState])

/-! ## Helper lemmas -/

theorem char_toNat_inj {a b : Char} (h : a.toNat = b.toNat) : a = b := by
  have ha := Char.ofNat_toNat a
  rw [h, Char.ofNat_toNat b] at ha
  exact ha.symm

theorem lexLe_total : ∀ x y : List Char, lexLe x y = true ∨ lexLe y x = true := by
  intro x
  induction x with
  | nil => intro y; left; simp [lexLe]
  | cons a as ih =>
    intro y
    cases y with
    | nil => right; simp [lexLe]
    | cons b bs =>
      by_cases hab : a.toNat < b.toNat
      · left; simp [lexLe, hab]
      · by_cases hba : b.toNat < a.toNat
        · right; simp [lexLe, hba]
        · rcases ih bs with h | h
          · left; simp [lexLe, hab, hba, h]
          · right; simp [lexLe, hab, hba, h]

theorem lexLe_trans :
    ∀ x y z : List Char, lexLe x y = true → lexLe y z = true → lexLe x z = true := by
  intro x
  induction x with
  | nil => intro y z _ _; simp [lexLe]
  | cons a as ih =>
    intro y z hxy hyz
    cases y with
    | nil => simp [lexLe] at hxy
    | cons b bs =>
      cases z with
      | nil => simp [lexLe] at hyz
      | cons c cs =>
        by_cases hab : a.toNat < b.toNat
        · by_cases hbc : b.toNat < c.toNat
          · simp [lexLe, Nat.lt_trans hab hbc]
          · by_cases hcb : c.toNat < b.toNat
            · simp [lexLe, hbc, hcb] at hyz
            · have hac : a.toNat < c.toNat := by omega
              simp [lexLe, hac]
        · by_cases hba : b.toNat < a.toNat
          · simp [lexLe, hab, hba] at hxy
          · simp only [lexLe, if_neg hab, if_neg hba] at hxy
            by_cases hbc : b.toNat < c.toNat
            · have hac : a.toNat < c.toNat := by omega
              simp [lexLe, hac]
            · by_cases hcb : c.toNat < b.toNat
              · simp [lexLe, hbc, hcb] at hyz
              · simp only [lexLe, if_neg hbc, if_neg hcb] at hyz
                have hac : ¬ a.toNat < c.toNat := by omega
                have hca : ¬ c.toNat < a.toNat := by omega
                simp only [lexLe, if_neg hac, if_neg hca]
                exact ih bs cs hxy hyz

theorem lexLe_antisymm :
    ∀ x y : List Char, lexLe x y = true → lexLe y x = true → x = y := by
  intro x
  induction x with
  | nil =>
    intro y _ hyx
    cases y with
    | nil => rfl
    | cons b bs => simp [lexLe] at hyx
  | cons a as ih =>
    intro y hxy hyx
    cases y with
    | nil => simp [lexLe] at hxy
    | cons b bs =>
      by_cases hab : a.toNat < b.toNat
      · have : ¬ b.toNat < a.toNat := by omega
        simp [lexLe, this, hab] at hyx
      · by_cases hba : b.toNat < a.toNat
        · simp [lexLe, hab, hba] at hxy
        · simp only [lexLe, if_neg hab, if_neg hba] at hxy
          simp only [lexLe, if_neg hba, if_neg hab] at hyx
          have hc : a = b := char_toNat_inj (by omega)
          rw [hc, ih bs hxy hyx]

instance : IsTotal String keyLE := ⟨fun a b => lexLe_total a.toList b.toList⟩

instance : IsTrans String keyLE :=
  ⟨fun a b c => lexLe_trans a.toList b.toList c.toList⟩

instance : IsAntisymm String keyLE :=
  ⟨fun a b h₁ h₂ => String.toList_inj.mp (lexLe_antisymm a.toList b.toList h₁ h₂)⟩

theorem jsLookup_eq_some_of_mem {l : List (String × JsVal)} {k : String} {v : JsVal}
    (hn : (l.map Prod.fst).Nodup) (hm : (k, v) ∈ l) : jsLookup k l = some v := by
  induction l with
  | nil => cases hm
  | cons p t ih =>
    rcases List.mem_cons.mp hm with hp | ht
    · subst hp
      simp [jsLookup, List.find?]
    · have hk : p.1 ≠ k := by
        intro he
        have : k ∈ t.map Prod.fst := List.mem_map.mpr ⟨(k, v), ht, rfl⟩
        rw [← he] at this
        exact (List.nodup_cons.mp (by simpa using hn)).1 this
      have : (p.1 == k) = false := by simpa using hk
      simp only [jsLookup, List.find?, this]
      exact ih (List.nodup_cons.mp (by simpa using hn)).2 ht

theorem mem_of_jsLookup_eq_some {l : List (String × JsVal)} {k : String} {v : JsVal}
    (h : jsLookup k l = some v) : (k, v) ∈ l := by
  simp only [jsLookup, Option.map_eq_some'] at h
  obtain ⟨p, hfind, hv⟩ := h
  have hmem := List.mem_of_find?_eq_some hfind
  have hkey := @List.find?_some _ (fun q : String × JsVal => q.1 == k) p l hfind
  have : p = (k, v) := by
    cases p
    simp only [beq_iff_eq] at hkey
    simp_all
  rwa [← this]

theorem jsLookup_perm {l₁ l₂ : List (String × JsVal)} (hp : l₁.Perm l₂)
    (hn : (l₁.map Prod.fst).Nodup) (k : String) : jsLookup k l₁ = jsLookup k l₂ := by
  have hn₂ : (l₂.map Prod.fst).Nodup := ((hp.map Prod.fst).nodup_iff).mp hn
  cases h₁ : jsLookup k l₁ with
  | some v =>
    exact (jsLookup_eq_some_of_mem hn₂ (hp.mem_iff.mp (mem_of_jsLookup_eq_some h₁))).symm
  | none =>
    cases h₂ : jsLookup k l₂ with
    | none => rfl
    | some v =>
      have : jsLookup k l₁ = some v :=
        jsLookup_eq_some_of_mem hn (hp.mem_iff.mpr (mem_of_jsLookup_eq_some h₂))
      rw [h₁] at this
      cases this

theorem storeHas_of_mem {st : StateStore} {k : String} {t : Nat} (hm : (k, t) ∈ st) :
    storeHas st k = true :=
  List.any_eq_true.mpr ⟨(k, t), hm, by simp⟩

theorem storeHas_storeSet_self (st : StateStore) (k : String) (v : Nat) :
    storeHas (storeSet st k v) k = true := by
  unfold storeSet
  by_cases h : storeHas st k = true
  · rw [if_pos h]
    obtain ⟨p, hp, hpk⟩ := List.any_eq_true.mp h
    refine List.any_eq_true.mpr ⟨(k, v), List.mem_map.mpr ⟨p, hp, ?_⟩, by simp⟩
    simp [hpk]
  · rw [if_neg h]
    exact List.any_eq_true.mpr ⟨(k, v), by simp, by simp⟩

theorem storeHas_storeDelete_self (st : StateStore) (k : String) :
    storeHas (storeDelete st k) k = false := by
  rw [Bool.eq_false_iff]
  intro h
  obtain ⟨p, hp, hpk⟩ := List.any_eq_true.mp h
  have := (List.mem_filter.mp hp).2
  simp only [bne_iff_ne, ne_eq] at this
  exact this (by simpa using hpk)


theorem shopTail_iff (l : List Char) :
    shopTail l = true ↔
      ∃ stem, l = stem ++ shopSuffix ∧ ∀ d ∈ stem, (isAlnum d || d == '-') = true := by
  induction l with
  | nil =>
    constructor
    · intro h
      exact absurd h (by decide)
    · rintro ⟨stem, heq, -⟩
      cases stem with
      | nil =>
        simp only [List.nil_append] at heq
        exact absurd heq.symm (by decide)
      | cons d ds => simp at heq
  | cons c cs ih =>
    by_cases h : (c :: cs) = shopSuffix
    · constructor
      · intro _
        exact ⟨[], by simp [h], by intro d hd; cases hd⟩
      · intro _
        rw [shopTail, if_pos h]
    · rw [shopTail, if_neg h]
      constructor
      · intro hh
        rw [Bool.and_eq_true] at hh
        obtain ⟨h₁, h₂⟩ := hh
        obtain ⟨stem, heq, hall⟩ := ih.mp h₂
        refine ⟨c :: stem, by simp [heq], ?_⟩
        intro d hd
        rcases List.mem_cons.mp hd with rfl | hd
        · exact h₁
        · exact hall d hd
      · rintro ⟨stem, heq, hall⟩
        cases stem with
        | nil => exact absurd (by simpa using heq) h
        | cons d ds =>
          simp only [List.cons_append, List.cons.injEq] at heq
          obtain ⟨rfl, heq₂⟩ := heq
          rw [Bool.and_eq_true]
          refine ⟨hall c (by simp), ih.mpr ⟨ds, heq₂, ?_⟩⟩
          intro e he
          exact hall e (by simp [he])

theorem isValidShop_iff (s : String) :
    isValidShop s = true ↔
      ∃ c cs, s.toList = c :: (cs ++ shopSuffix) ∧ isAlnum c = true ∧
        ∀ d ∈ cs, (isAlnum d || d == '-') = true := by
  unfold isValidShop
  cases hs : s.toList with
  | nil => simp [isValidShopList]
  | cons c cs =>
    simp only [isValidShopList, Bool.and_eq_true]
    constructor
    · rintro ⟨h₁, h₂⟩
      obtain ⟨stem, heq, hall⟩ := (shopTail_iff cs).mp h₂
      exact ⟨c, stem, by simp [heq], h₁, hall⟩
    · rintro ⟨c', cs', heq, h₁, hall⟩
      obtain ⟨rfl, heq₂⟩ := List.cons.injEq .. |>.mp heq
      exact ⟨h₁, (shopTail_iff cs).mpr ⟨cs', heq₂, hall⟩⟩

theorem safeCompare_ok (a b : JsVal) : ∃ r, safeCompare a b = .ok r := by
  unfold safeCompare
  by_cases h : (bufferFrom a).length ≠ (bufferFrom b).length
  · exact ⟨false, by rw [if_pos h]⟩
  · rw [if_neg h]
    unfold timingSafeEqual
    rw [if_pos (not_ne_iff.mp h)]
    exact ⟨_, rfl⟩

theorem verifyHmacE_none {secret : String} {q : List (String × JsVal)}
    (hl : jsLookup "hmac" q = none) :
    verifyHmacE secret q = .ok (false, .missingHmac) := by
  unfold verifyHmacE
  rw [hl]

theorem verifyHmacE_some {secret : String} {q : List (String × JsVal)} {v : JsVal}
    (hl : jsLookup "hmac" q = some v) :
    verifyHmacE secret q = verifyCompare secret q v := by
  unfold verifyHmacE
  rw [hl]

theorem verifyCompare_falsy {secret : String} {q : List (String × JsVal)} {v : JsVal}
    (ht : truthy v = false) :
    verifyCompare secret q v = .ok (false, .missingHmac) := by
  unfold verifyCompare
  exact if_neg fun hc => Bool.false_ne_true (ht ▸ hc)

theorem verifyCompare_match_true {secret : String} {q : List (String × JsVal)} {v : JsVal}
    (ht : truthy v = true)
    (hsc : safeCompare (.str (hmacSha256Hex secret (buildHmacMessage q))) v = .ok true) :
    verifyCompare secret q v = .ok (true, .valid) := by
  unfold verifyCompare
  rw [if_pos ht, hsc]

theorem verifyCompare_match_false {secret : String} {q : List (String × JsVal)} {v : JsVal}
    (ht : truthy v = true)
    (hsc : safeCompare (.str (hmacSha256Hex secret (buildHmacMessage q))) v = .ok false) :
    verifyCompare secret q v = .ok (false, .mismatch) := by
  unfold verifyCompare
  rw [if_pos ht, hsc]

theorem callback_shopFail {secret : String} {q : List (String × JsVal)} {st : StateStore}
    (hs : shopParamOk (jsLookup "shop" q) = false) :
    callback secret q st = (.invalidShop, st, [.shopGate]) := by
  unfold callback
  rw [hs]
  rfl

theorem callback_codeFail {secret : String} {q : List (String × JsVal)} {st : StateStore}
    (hs : shopParamOk (jsLookup "shop" q) = true)
    (hc : truthyO (jsLookup "code" q) = false) :
    callback secret q st = (.missingCode, st, [.shopGate, .codeGate]) := by
  unfold callback
  rw [hs, hc]
  rfl

theorem callback_stateFail {secret : String} {q : List (String × JsVal)} {st : StateStore}
    (hs : shopParamOk (jsLookup "shop" q) = true)
    (hc : truthyO (jsLookup "code" q) = true)
    (hst : (truthyO (jsLookup "state" q) &&
      stateHas st ((jsLookup "state" q).getD (.str ""))) = false) :
    callback secret q st = (.invalidState, st, [.shopGate, .codeGate, .stateGate]) := by
  unfold callback
  rw [hs, hc, hst]
  rfl

theorem callback_hmacFail {secret : String} {q : List (String × JsVal)} {st : StateStore}
    {br : VerifyBranch}
    (hs : shopParamOk (jsLookup "shop" q) = true)
    (hc : truthyO (jsLookup "code" q) = true)
    (hst : (truthyO (jsLookup "state" q) &&
      stateHas st ((jsLookup "state" q).getD (.str ""))) = true)
    (hv : verifyHmacE secret q = .ok (false, br)) :
    callback secret q st = (.hmacFailed, st, [.shopGate, .codeGate, .stateGate, .hmacGate]) := by
  unfold callback
  rw [hs, hc, hst, hv]
  rfl

theorem callback_thrown {secret : String} {q : List (String × JsVal)} {st : StateStore}
    {e : String}
    (hs : shopParamOk (jsLookup "shop" q) = true)
    (hc : truthyO (jsLookup "code" q) = true)
    (hst : (truthyO (jsLookup "state" q) &&
      stateHas st ((jsLookup "state" q).getD (.str ""))) = true)
    (hv : verifyHmacE secret q = .error e) :
    callback secret q st = (.thrown e, st, [.shopGate, .codeGate, .stateGate, .hmacGate]) := by
  unfold callback
  rw [hs, hc, hst, hv]
  rfl

theorem callback_validated {secret : String} {q : List (String × JsVal)} {st : StateStore}
    {br : VerifyBranch}
    (hs : shopParamOk (jsLookup "shop" q) = true)
    (hc : truthyO (jsLookup "code" q) = true)
    (hst : (truthyO (jsLookup "state" q) &&
      stateHas st ((jsLookup "state" q).getD (.str ""))) = true)
    (hv : verifyHmacE secret q = .ok (true, br)) :
    callback secret q st =
      (.validated (jsToString ((jsLookup "shop" q).getD (.str "")))
        (jsToString ((jsLookup "code" q).getD (.str ""))),
       stateDeleteVal st ((jsLookup "state" q).getD (.str "")),
       [.shopGate, .codeGate, .stateGate, .hmacGate, .consumeState]) := by
  unfold callback
  rw [hs, hc, hst, hv]
  rfl

/-- **C7.** `isValidShop` returns true exactly for strings made of an
alphanumeric character, then any number of alphanumeric-or-hyphen characters,
then the literal suffix `.myshopify.com`; in particular it accepts
`abc-1.myshopify.com` and rejects `-abc.myshopify.com`, `abc.notshopify.com`,
and the empty string. -/
theorem C7_isValidShop_spec :
    (∀ s : String, isValidShop s = true ↔
        ∃ c cs, s.toList = c :: (cs ++ shopSuffix) ∧ isAlnum c = true ∧
          ∀ d ∈ cs, (isAlnum d = true ∨ d = '-')) ∧
    isValidShop "abc-1.myshopify.com" = true ∧
    isValidShop "-abc.myshopify.com" = false ∧
    isValidShop "abc.notshopify.com" = false ∧
    isValidShop "" = false := by
  refine ⟨?_, by decide, by decide, by decide, by decide⟩
  intro s
  rw [isValidShop_iff]
  constructor
  · rintro ⟨c, cs, heq, h₁, hall⟩
    refine ⟨c, cs, heq, h₁, ?_⟩
    intro d hd
    simpa [Bool.or_eq_true, beq_iff_eq] using hall d hd
  · rintro ⟨c, cs, heq, h₁, hall⟩
    refine ⟨c, cs, heq, h₁, ?_⟩
    intro d hd
    simpa [Bool.or_eq_true, beq_iff_eq] using hall d hd

/-- Witness for C7 at the concrete accepted shop `abc-1.myshopify.com`. -/
theorem C7_isValidShop_spec_witness :
    ∃ c cs, "abc-1.myshopify.com".toList = c :: (cs ++ shopSuffix) ∧ isAlnum c = true ∧
      ∀ d ∈ cs, (isAlnum d = true ∨ d = '-') :=
  (C7_isValidShop_spec.1 "abc-1.myshopify.com").mp (by decide)

/-- **C6.** `safeCompare` on two strings returns `false` whenever the UTF-8
byte lengths differ (without any content comparison — `timingSafeEqual` is not
reached), and under equal lengths returns `true` exactly when the byte
sequences are equal. -/
theorem C6_safeCompare_spec (a b : String) :
    ((utf8 a).length ≠ (utf8 b).length →
      safeCompare (.str a) (.str b) = .ok false) ∧
    ((utf8 a).length = (utf8 b).length →
      (safeCompare (.str a) (.str b) = .ok true ↔ utf8 a = utf8 b)) := by
  constructor
  · intro h
    simp only [safeCompare, bufferFrom]
    rw [if_pos h]
  · intro h
    simp only [safeCompare, bufferFrom]
    rw [if_neg (not_ne_iff.mpr h)]
    unfold timingSafeEqual
    rw [if_pos h]
    simp

/-- Witness for C6: a length mismatch, and a same-length mismatching pair. -/
theorem C6_safeCompare_spec_witness :
    safeCompare (.str "ab") (.str "c") = .ok false ∧
    safeCompare (.str "ab") (.str "ac") ≠ .ok true := by
  refine ⟨(C6_safeCompare_spec "ab" "c").1 (by decide), fun h => ?_⟩
  exact absurd (((C6_safeCompare_spec "ab" "ac").2 (by decide)).mp h) (by decide)

/-- **C10.** An `hmac` parameter that is present but equal to the empty string
is falsy in JavaScript, so `verifyHmac` returns `false` through the early
missing-signature branch (`VerifyBranch.missingHmac` records that no hash was
computed and no comparison was performed). -/
theorem C10_emptyHmac_treated_missing (secret : String) (query : List (String × JsVal))
    (h : jsLookup "hmac" query = some (.str "")) :
    verifyHmacE secret query = .ok (false, .missingHmac) := by
  rw [verifyHmacE_some h]
  exact verifyCompare_falsy (by decide)

/-- Witness for C10 at a concrete query with an empty `hmac`. -/
theorem C10_emptyHmac_treated_missing_witness :
    verifyHmacE "sec" [("shop", JsVal.str "a.myshopify.com"), ("hmac", JsVal.str "")] =
      .ok (false, .missingHmac) :=
  C10_emptyHmac_treated_missing "sec" _ (by decide)

/-- **C4.** `verifyHmac` never throws (the `timingSafeEqual` call is always
guarded by the length check), and returns `false` whenever the `hmac` field is
absent, whenever the byte lengths of the computed and supplied signatures
differ, and whenever the byte comparison fails — for every query and whatever
the runtime type (string or array) of the `hmac` value. -/
theorem C4_verify_failClosed (secret : String) (query : List (String × JsVal)) :
    (verifyHmacE secret query).isOk = true ∧
    (jsLookup "hmac" query = none → verifyHmacE secret query = .ok (false, .missingHmac)) ∧
    (∀ h, jsLookup "hmac" query = some h →
      (utf8 (hmacSha256Hex secret (buildHmacMessage query))).length ≠ (bufferFrom h).length →
      ∃ br, verifyHmacE secret query = .ok (false, br)) ∧
    (∀ h, jsLookup "hmac" query = some h →
      (utf8 (hmacSha256Hex secret (buildHmacMessage query))).length = (bufferFrom h).length →
      utf8 (hmacSha256Hex secret (buildHmacMessage query)) ≠ bufferFrom h →
      ∃ br, verifyHmacE secret query = .ok (false, br)) := by
  refine ⟨?_, ?_, ?_, ?_⟩
  · cases hl : jsLookup "hmac" query with
    | none => rw [verifyHmacE_none hl]; rfl
    | some v =>
      rw [verifyHmacE_some hl]
      cases ht : truthy v with
      | false => rw [verifyCompare_falsy ht]; rfl
      | true =>
        obtain ⟨r, hr⟩ :=
          safeCompare_ok (.str (hmacSha256Hex secret (buildHmacMessage query))) v
        cases r
        · rw [verifyCompare_match_false ht hr]; rfl
        · rw [verifyCompare_match_true ht hr]; rfl
  · intro hl
    exact verifyHmacE_none hl
  · intro h hl hlen
    rw [verifyHmacE_some hl]
    cases ht : truthy h with
    | false => exact ⟨.missingHmac, verifyCompare_falsy ht⟩
    | true =>
      have hsc : safeCompare (.str (hmacSha256Hex secret (buildHmacMessage query))) h =
          .ok false := by
        unfold safeCompare
        rw [if_pos (by simpa [bufferFrom] using hlen)]
      exact ⟨.mismatch, verifyCompare_match_false ht hsc⟩
  · intro h hl hlen hbytes
    rw [verifyHmacE_some hl]
    cases ht : truthy h with
    | false => exact ⟨.missingHmac, verifyCompare_falsy ht⟩
    | true =>
      have hsc : safeCompare (.str (hmacSha256Hex secret (buildHmacMessage query))) h =
          .ok false := by
        unfold safeCompare
        rw [if_neg (by simpa [bufferFrom] using not_ne_iff.mpr hlen)]
        unfold timingSafeEqual
        rw [if_pos (by simpa [bufferFrom] using hlen)]
        simpa [bufferFrom] using hbytes
      exact ⟨.mismatch, verifyCompare_match_false ht hsc⟩

set_option maxRecDepth 100000 in
/-- Witness for C4: the absent-hmac case, an array-typed hmac of mismatching
length, and a 64-character hmac of matching length but differing bytes. -/
theorem C4_verify_failClosed_witness :
    verifyHmacE "sec" [("a", JsVal.str "b")] = .ok (false, .missingHmac) ∧
    (∃ br, verifyHmacE "sec" [("a", JsVal.str "b"), ("hmac", JsVal.arr ["1", "2"])] =
      .ok (false, br)) ∧
    (∃ br, verifyHmacE "sec" [("a", JsVal.str "b"),
      ("hmac", JsVal.str "0000000000000000000000000000000000000000000000000000000000000000")] =
      .ok (false, br)) := by
  refine ⟨(C4_verify_failClosed "sec" [("a", JsVal.str "b")]).2.1 (by decide), ?_, ?_⟩
  · exact (C4_verify_failClosed "sec" _).2.2.1 (JsVal.arr ["1", "2"]) (by decide) (by decide)
  · exact (C4_verify_failClosed "sec" _).2.2.2
      (JsVal.str "0000000000000000000000000000000000000000000000000000000000000000")
      (by decide) (by decide) (by decide)

theorem map_fst_orderedInsert (p : String × String) (l : List (String × String)) :
    (List.orderedInsert pairKeyLE p l).map Prod.fst =
      List.orderedInsert keyLE p.1 (l.map Prod.fst) := by
  induction l with
  | nil => rfl
  | cons b t ih =>
    simp only [List.orderedInsert, List.map_cons]
    by_cases h : pairKeyLE p b
    · rw [if_pos h, if_pos (show keyLE p.1 b.1 from h)]
      rfl
    · rw [if_neg h, if_neg (show ¬ keyLE p.1 b.1 from h)]
      simp only [List.map_cons]
      rw [ih]

theorem map_fst_insertionSort (l : List (String × String)) :
    (List.insertionSort pairKeyLE l).map Prod.fst =
      List.insertionSort keyLE (l.map Prod.fst) := by
  induction l with
  | nil => rfl
  | cons p t ih =>
    simp only [List.insertionSort, List.map_cons]
    rw [← ih, map_fst_orderedInsert]

theorem buildHmacMessage_eq_spec (q : List (String × JsVal))
    (hn : (q.map Prod.fst).Nodup) : buildHmacMessage q = specSignedMessage q := by
  have hsub : (q.filter fun p => p.1 != "hmac" && p.1 != "signature").Sublist q :=
    List.filter_sublist q
  have hrn : ((q.filter fun p => p.1 != "hmac" && p.1 != "signature").map Prod.fst).Nodup :=
    List.Nodup.sublist (hsub.map Prod.fst) hn
  simp only [buildHmacMessage, specSignedMessage]
  congr 1
  have hkeys : List.map Prod.fst (List.map (fun p : String × JsVal => (p.1, flattenVal p.2))
      (q.filter fun p => p.1 != "hmac" && p.1 != "signature")) =
      List.map Prod.fst (q.filter fun p => p.1 != "hmac" && p.1 != "signature") := by
    rw [List.map_map]
    rfl
  rw [← hkeys, ← map_fst_insertionSort, List.map_map]
  refine List.map_congr_left ?_
  intro p hp
  have hp' : p ∈ List.map (fun p : String × JsVal => (p.1, flattenVal p.2))
      (q.filter fun p => p.1 != "hmac" && p.1 != "signature") :=
    (List.perm_insertionSort pairKeyLE _).mem_iff.mp hp
  obtain ⟨p0, hp0, rfl⟩ := List.mem_map.mp hp'
  have hmem : (p0.1, p0.2) ∈ (q.filter fun p => p.1 != "hmac" && p.1 != "signature") := by
    cases p0
    exact hp0
  have hlook := jsLookup_eq_some_of_mem hrn hmem
  simp only [Function.comp_apply, hlook]

theorem buildHmacMessage_perm {q₁ q₂ : List (String × JsVal)} (hperm : q₁.Perm q₂)
    (hn : (q₁.map Prod.fst).Nodup) : buildHmacMessage q₁ = buildHmacMessage q₂ := by
  have hrperm : (q₁.filter fun p => p.1 != "hmac" && p.1 != "signature").Perm
      (q₂.filter fun p => p.1 != "hmac" && p.1 != "signature") := hperm.filter _
  have hr₁ : ((q₁.filter fun p => p.1 != "hmac" && p.1 != "signature").map Prod.fst).Nodup :=
    List.Nodup.sublist ((List.filter_sublist q₁).map Prod.fst) hn
  simp only [buildHmacMessage]
  have hkeys : List.insertionSort keyLE
      ((q₁.filter fun p => p.1 != "hmac" && p.1 != "signature").map Prod.fst) =
      List.insertionSort keyLE
        ((q₂.filter fun p => p.1 != "hmac" && p.1 != "signature").map Prod.fst) := by
    refine List.eq_of_perm_of_sorted
      ((List.perm_insertionSort keyLE _).trans
        ((hrperm.map Prod.fst).trans (List.perm_insertionSort keyLE _).symm))
      (List.sorted_insertionSort keyLE _) (List.sorted_insertionSort keyLE _)
  rw [hkeys]
  refine congrArg _ (List.map_congr_left ?_)
  intro k hk
  rw [jsLookup_perm hrperm hr₁ k]

/-- **C2.** The message signed by `verifyHmac` is obtained by removing the
`hmac` and `signature` fields, comma-joining every array value in received
order, sorting the remaining keys lexicographically, percent-encoding each key
and value, and joining `key=value` pairs with `&` (stated as equality with
`specSignedMessage`, the spec's wording of the algorithm); in particular for
`{a: ["x","y"], hmac: H}` the signed message is exactly `a=x%2Cy`. -/
theorem C2_signedMessage_spec :
    (∀ q : List (String × JsVal), (q.map Prod.fst).Nodup →
        buildHmacMessage q = specSignedMessage q) ∧
    buildHmacMessage [("a", JsVal.arr ["x", "y"]), ("hmac", JsVal.str "H")] = "a=x%2Cy" :=
  ⟨buildHmacMessage_eq_spec, by decide⟩

/-- Witness for C2 at a concrete two-key query with an array value. -/
theorem C2_signedMessage_spec_witness :
    buildHmacMessage [("b", JsVal.str "2"), ("a", JsVal.arr ["x", "y"]), ("hmac", JsVal.str "H")] =
      specSignedMessage
        [("b", JsVal.str "2"), ("a", JsVal.arr ["x", "y"]), ("hmac", JsVal.str "H")] :=
  C2_signedMessage_spec.1 _ (by decide)

/-- **C8.** Signature verification is invariant under reordering of the query
parameters: for any two queries containing the same key/value bindings
(including the `hmac` binding) in different insertion orders, `verifyHmac`
yields the same result, because keys are sorted before hashing. -/
theorem C8_verify_reorder_invariant (secret : String) (q₁ q₂ : List (String × JsVal))
    (hperm : q₁.Perm q₂) (hn : (q₁.map Prod.fst).Nodup) :
    verifyHmacE secret q₁ = verifyHmacE secret q₂ := by
  have hm := buildHmacMessage_perm hperm hn
  have hlk := jsLookup_perm hperm hn "hmac"
  cases hl : jsLookup "hmac" q₂ with
  | none => rw [verifyHmacE_none (hlk.trans hl), verifyHmacE_none hl]
  | some v =>
    rw [verifyHmacE_some (hlk.trans hl), verifyHmacE_some hl]
    unfold verifyCompare
    rw [hm]

/-- Witness for C8: two concrete reorderings of the same three bindings. -/
theorem C8_verify_reorder_invariant_witness :
    verifyHmacE "k" [("a", JsVal.str "1"), ("b", JsVal.str "2"), ("hmac", JsVal.str "h")] =
      verifyHmacE "k" [("b", JsVal.str "2"), ("hmac", JsVal.str "h"), ("a", JsVal.str "1")] :=
  C8_verify_reorder_invariant "k" _ _ (by decide) (by decide)

theorem callback_shape (secret : String) (q : List (String × JsVal)) (st : StateStore) :
    callback secret q st = (.invalidShop, st, [.shopGate]) ∨
    callback secret q st = (.missingCode, st, [.shopGate, .codeGate]) ∨
    callback secret q st = (.invalidState, st, [.shopGate, .codeGate, .stateGate]) ∨
    (∃ e, verifyHmacE secret q = .error e ∧
      callback secret q st = (.thrown e, st, [.shopGate, .codeGate, .stateGate, .hmacGate])) ∨
    ((∃ br, verifyHmacE secret q = .ok (false, br)) ∧
      callback secret q st = (.hmacFailed, st, [.shopGate, .codeGate, .stateGate, .hmacGate])) ∨
    ((∃ br, verifyHmacE secret q = .ok (true, br)) ∧
      callback secret q st =
        (.validated (jsToString ((jsLookup "shop" q).getD (.str "")))
          (jsToString ((jsLookup "code" q).getD (.str ""))),
         stateDeleteVal st ((jsLookup "state" q).getD (.str "")),
         [.shopGate, .codeGate, .stateGate, .hmacGate, .consumeState])) := by
  cases hs : shopParamOk (jsLookup "shop" q) with
  | false => exact Or.inl (callback_shopFail hs)
  | true =>
    cases hc : truthyO (jsLookup "code" q) with
    | false => exact Or.inr (Or.inl (callback_codeFail hs hc))
    | true =>
      cases hst : truthyO (jsLookup "state" q) &&
          stateHas st ((jsLookup "state" q).getD (.str "")) with
      | false => exact Or.inr (Or.inr (Or.inl (callback_stateFail hs hc hst)))
      | true =>
        cases hv : verifyHmacE secret q with
        | error e =>
          exact Or.inr (Or.inr (Or.inr (Or.inl ⟨e, rfl, callback_thrown hs hc hst hv⟩)))
        | ok p =>
          obtain ⟨b, br⟩ := p
          cases b with
          | false =>
            exact Or.inr (Or.inr (Or.inr (Or.inr (Or.inl
              ⟨⟨br, rfl⟩, callback_hmacFail hs hc hst hv⟩))))
          | true =>
            exact Or.inr (Or.inr (Or.inr (Or.inr (Or.inr
              ⟨⟨br, rfl⟩, callback_validated hs hc hst hv⟩))))

theorem isValidShop_ne_empty {s : String} (h : isValidShop s = true) : s ≠ "" := by
  intro he
  subst he
  exact absurd h (by decide)

theorem shopParamOk_some_str {s : String} (h : isValidShop s = true) :
    shopParamOk (some (.str s)) = true := by
  simp [shopParamOk, truthy, jsToString, h, isValidShop_ne_empty h]

/-- **C5.** The callback's gates short-circuit in source order and leave the
registry unchanged on failure: a request failing shop validation yields the
shop-gate 400 with the registry untouched and never reaches the HMAC gate; a
request failing HMAC validation leaves the registry unchanged and never
consumes a token; the consume step runs only when `verifyHmac` succeeded. -/
theorem C5_gates_shortcircuit (secret : String) (q : List (String × JsVal)) (st : StateStore) :
    (shopParamOk (jsLookup "shop" q) = false →
      callback secret q st = (.invalidShop, st, [.shopGate]) ∧
      Gate.hmacGate ∉ (callback secret q st).2.2) ∧
    ((callback secret q st).1 = .hmacFailed →
      (callback secret q st).2.1 = st ∧
      Gate.consumeState ∉ (callback secret q st).2.2) ∧
    (Gate.consumeState ∈ (callback secret q st).2.2 →
      ∃ br, verifyHmacE secret q = .ok (true, br)) := by
  refine ⟨?_, ?_, ?_⟩
  · intro hs
    refine ⟨callback_shopFail hs, ?_⟩
    rw [callback_shopFail hs]
    exact (by decide : Gate.hmacGate ∉ [Gate.shopGate])
  · intro hres
    rcases callback_shape secret q st with h | h | h | ⟨e, -, h⟩ | ⟨-, h⟩ | ⟨-, h⟩
    · rw [h] at hres; simp at hres
    · rw [h] at hres; simp at hres
    · rw [h] at hres; simp at hres
    · rw [h] at hres; simp at hres
    · rw [h]
      exact ⟨rfl, (by decide :
        Gate.consumeState ∉ [Gate.shopGate, Gate.codeGate, Gate.stateGate, Gate.hmacGate])⟩
    · rw [h] at hres; simp at hres
  · intro hmem
    rcases callback_shape secret q st with h | h | h | ⟨e, -, h⟩ | ⟨-, h⟩ | ⟨hbr, h⟩
    · rw [h] at hmem
      exact absurd hmem (by decide : Gate.consumeState ∉ [Gate.shopGate])
    · rw [h] at hmem
      exact absurd hmem (by decide : Gate.consumeState ∉ [Gate.shopGate, Gate.codeGate])
    · rw [h] at hmem
      exact absurd hmem
        (by decide : Gate.consumeState ∉ [Gate.shopGate, Gate.codeGate, Gate.stateGate])
    · rw [h] at hmem
      exact absurd hmem (by decide :
        Gate.consumeState ∉ [Gate.shopGate, Gate.codeGate, Gate.stateGate, Gate.hmacGate])
    · rw [h] at hmem
      exact absurd hmem (by decide :
        Gate.consumeState ∉ [Gate.shopGate, Gate.codeGate, Gate.stateGate, Gate.hmacGate])
    · exact hbr

/-- **C9.** State tokens are not bound to the shop that created them: the
registry stores only token and timestamp, and the callback's state gate
depends only on membership, so a token issued by `/install?shop=A` passes the
state gate of a callback whose `shop` parameter is a different valid shop B
(the request proceeds to the HMAC gate instead of failing with the state 400). -/
theorem C9_state_not_shop_bound (secret shopA shopB token : String) (now : Nat)
    (st : StateStore) (q : List (String × JsVal))
    (hA : isValidShop shopA = true)
    (hqshop : jsLookup "shop" q = some (.str shopB))
    (hB : isValidShop shopB = true)
    (hcode : truthyO (jsLookup "code" q) = true)
    (hqstate : jsLookup "state" q = some (.str token))
    (htok : token ≠ "") :
    (callback secret q (install (some (.str shopA)) token now st).2).1 ≠ .invalidState ∧
    Gate.hmacGate ∈ (callback secret q (install (some (.str shopA)) token now st).2).2.2 := by
  have hinst : (install (some (.str shopA)) token now st).2 = storeSet st token now := by
    unfold install
    rw [shopParamOk_some_str hA]
    rfl
  rw [hinst]
  have hshop : shopParamOk (jsLookup "shop" q) = true := by
    rw [hqshop]
    exact shopParamOk_some_str hB
  have hstgate : (truthyO (jsLookup "state" q) &&
      stateHas (storeSet st token now) ((jsLookup "state" q).getD (.str ""))) = true := by
    rw [hqstate]
    simp [truthyO, truthy, htok, stateHas, storeHas_storeSet_self]
  cases hv : verifyHmacE secret q with
  | error e =>
    rw [callback_thrown hshop hcode hstgate hv]
    exact ⟨by simp, (by decide :
      Gate.hmacGate ∈ [Gate.shopGate, Gate.codeGate, Gate.stateGate, Gate.hmacGate])⟩
  | ok p =>
    obtain ⟨b, br⟩ := p
    cases b with
    | false =>
      rw [callback_hmacFail hshop hcode hstgate hv]
      exact ⟨by simp, (by decide :
        Gate.hmacGate ∈ [Gate.shopGate, Gate.codeGate, Gate.stateGate, Gate.hmacGate])⟩
    | true =>
      rw [callback_validated hshop hcode hstgate hv]
      exact ⟨by simp, (by decide : Gate.hmacGate ∈
        [Gate.shopGate, Gate.codeGate, Gate.stateGate, Gate.hmacGate, Gate.consumeState])⟩

/-- Witness for C9: a token issued for `a.myshopify.com` passes the state gate
of a callback for `b.myshopify.com`. -/
theorem C9_state_not_shop_bound_witness :
    (callback "sec"
      [("shop", JsVal.str "b.myshopify.com"), ("code", JsVal.str "c"),
       ("state", JsVal.str "tokn")]
      (install (some (.str "a.myshopify.com")) "tokn" 5 []).2).1 ≠ .invalidState ∧
    Gate.hmacGate ∈ (callback "sec"
      [("shop", JsVal.str "b.myshopify.com"), ("code", JsVal.str "c"),
       ("state", JsVal.str "tokn")]
      (install (some (.str "a.myshopify.com")) "tokn" 5 []).2).2.2 :=
  C9_state_not_shop_bound "sec" "a.myshopify.com" "b.myshopify.com" "tokn" 5 []
    [("shop", JsVal.str "b.myshopify.com"), ("code", JsVal.str "c"),
     ("state", JsVal.str "tokn")]
    (by decide) (by decide) (by decide) (by decide) (by decide) (by decide)

set_option maxRecDepth 1000000 in
/-- Witness for C5: a shop-gate failure, an HMAC-gate failure leaving the
registry unchanged, and a fully-authenticated request whose trace contains the
consume step only with a successful verification. -/
theorem C5_gates_shortcircuit_witness :
    (callback "sec" [] [] = (.invalidShop, [], [.shopGate]) ∧
      Gate.hmacGate ∉ (callback "sec" [] []).2.2) ∧
    ((callback "sec" [("shop", JsVal.str "a.myshopify.com"), ("code", JsVal.str "c"),
        ("state", JsVal.str "t5")] [("t5", 0)]).2.1 = [("t5", 0)] ∧
      Gate.consumeState ∉ (callback "sec" [("shop", JsVal.str "a.myshopify.com"),
        ("code", JsVal.str "c"), ("state", JsVal.str "t5")] [("t5", 0)]).2.2) ∧
    (∃ br, verifyHmacE "shh"
      [("code", JsVal.str "c0de"), ("shop", JsVal.str "a.myshopify.com"),
       ("state", JsVal.str "tok"),
       ("hmac", JsVal.str (hmacSha256Hex "shh" "code=c0de&shop=a.myshopify.com&state=tok"))] =
      .ok (true, br)) :=
  ⟨(C5_gates_shortcircuit "sec" [] []).1 (by decide),
   (C5_gates_shortcircuit "sec" [("shop", JsVal.str "a.myshopify.com"),
      ("code", JsVal.str "c"), ("state", JsVal.str "t5")] [("t5", 0)]).2.1 (by decide),
   (C5_gates_shortcircuit "shh"
      [("code", JsVal.str "c0de"), ("shop", JsVal.str "a.myshopify.com"),
       ("state", JsVal.str "tok"),
       ("hmac", JsVal.str (hmacSha256Hex "shh" "code=c0de&shop=a.myshopify.com&state=tok"))]
      [("tok", 0)]).2.2 (by decide)⟩

/-- **C3.** State tokens are single-use: when a callback run validates
successfully (reaching the token-exchange step) with state token `s`, the
token is deleted from the registry, and any later callback presenting the
same token value — whatever its secret and query, provided it passes the
shop and code gates — fails the state check with the 400
`Invalid or missing state` response. -/
theorem C3_state_single_use (secret : String) (q : List (String × JsVal)) (st : StateStore)
    (s : String) (hqstate : jsLookup "state" q = some (.str s))
    (hres : ∃ shop code, (callback secret q st).1 = .validated shop code) :
    storeHas (callback secret q st).2.1 s = false ∧
    ∀ (secret₂ : String) (q₂ : List (String × JsVal)),
      jsLookup "state" q₂ = some (.str s) →
      shopParamOk (jsLookup "shop" q₂) = true →
      truthyO (jsLookup "code" q₂) = true →
      (callback secret₂ q₂ (callback secret q st).2.1).1 = .invalidState := by
  obtain ⟨shop, code, hres⟩ := hres
  rcases callback_shape secret q st with h | h | h | ⟨e, -, h⟩ | ⟨-, h⟩ | ⟨-, h⟩
  · rw [h] at hres; simp at hres
  · rw [h] at hres; simp at hres
  · rw [h] at hres; simp at hres
  · rw [h] at hres; simp at hres
  · rw [h] at hres; simp at hres
  · have hdel : (callback secret q st).2.1 = storeDelete st s := by
      rw [h, hqstate]
      rfl
    have hhas : storeHas (callback secret q st).2.1 s = false := by
      rw [hdel]
      exact storeHas_storeDelete_self st s
    refine ⟨hhas, ?_⟩
    intro secret₂ q₂ hq₂ hs₂ hc₂
    have hstf : (truthyO (jsLookup "state" q₂) &&
        stateHas (callback secret q st).2.1 ((jsLookup "state" q₂).getD (.str ""))) = false := by
      rw [hq₂]
      simp [stateHas, hhas]
    rw [callback_stateFail hs₂ hc₂ hstf]

set_option maxRecDepth 1000000 in
/-- Witness for C3: a fully-authenticated callback consumes `tok`; replaying
the identical request is rejected at the state gate. -/
theorem C3_state_single_use_witness :
    storeHas (callback "shh"
      [("code", JsVal.str "c0de"), ("shop", JsVal.str "a.myshopify.com"),
       ("state", JsVal.str "tok"),
       ("hmac", JsVal.str (hmacSha256Hex "shh" "code=c0de&shop=a.myshopify.com&state=tok"))]
      [("tok", 0)]).2.1 "tok" = false ∧
    (callback "shh"
      [("code", JsVal.str "c0de"), ("shop", JsVal.str "a.myshopify.com"),
       ("state", JsVal.str "tok"),
       ("hmac", JsVal.str (hmacSha256Hex "shh" "code=c0de&shop=a.myshopify.com&state=tok"))]
      (callback "shh"
        [("code", JsVal.str "c0de"), ("shop", JsVal.str "a.myshopify.com"),
         ("state", JsVal.str "tok"),
         ("hmac", JsVal.str (hmacSha256Hex "shh" "code=c0de&shop=a.myshopify.com&state=tok"))]
        [("tok", 0)]).2.1).1 = .invalidState := by
  have h := C3_state_single_use "shh"
    [("code", JsVal.str "c0de"), ("shop", JsVal.str "a.myshopify.com"),
     ("state", JsVal.str "tok"),
     ("hmac", JsVal.str (hmacSha256Hex "shh" "code=c0de&shop=a.myshopify.com&state=tok"))]
    [("tok", 0)] "tok" (by decide) ⟨"a.myshopify.com", "c0de", by decide⟩
  exact ⟨h.1, h.2 "shh"
    [("code", JsVal.str "c0de"), ("shop", JsVal.str "a.myshopify.com"),
     ("state", JsVal.str "tok"),
     ("hmac", JsVal.str (hmacSha256Hex "shh" "code=c0de&shop=a.myshopify.com&state=tok"))]
    (by decide) (by decide) (by decide)⟩

set_option maxRecDepth 1000000 in
/-- Counterexample to C1 as stated: a token created at time 0 whose age at
time `600001 ms` exceeds `STATE_TTL_MS = 600000` and which the sweep — had it
run — would have deleted, still passes the callback's state check: a correctly
signed request is fully validated (and the expired token is even consumed),
instead of failing with the 400 `Invalid or missing state` response.  The
state gate at `server.js` line 125 tests only `stateStore.has(state)` and
never compares the stored timestamp against `STATE_TTL_MS`. -/
theorem C1_ttl_counterexample :
    STATE_TTL_MS < 600001 - 0 ∧
    sweep 600001 [("tok", 0)] = [] ∧
    (callback "shh"
      [("code", JsVal.str "c0de"), ("shop", JsVal.str "a.myshopify.com"),
       ("state", JsVal.str "tok"),
       ("hmac", JsVal.str (hmacSha256Hex "shh" "code=c0de&shop=a.myshopify.com&state=tok"))]
      [("tok", 0)]).1 = .validated "a.myshopify.com" "c0de" ∧
    (callback "shh"
      [("code", JsVal.str "c0de"), ("shop", JsVal.str "a.myshopify.com"),
       ("state", JsVal.str "tok"),
       ("hmac", JsVal.str (hmacSha256Hex "shh" "code=c0de&shop=a.myshopify.com&state=tok"))]
      [("tok", 0)]).2.1 = [] :=
  ⟨by decide, by decide, by decide, by decide⟩

/-- **C1 (amended).** The callback's state check tests only membership in the
registry: a token whose age exceeds `STATE_TTL_MS` at the time of the check
but which the periodic sweep has not yet removed still passes the state gate
(the request proceeds to the HMAC gate); the TTL is enforced solely by the
sweep, never by the consume step. -/
theorem C1_amended_state_check_ignores_ttl (secret : String) (q : List (String × JsVal))
    (st : StateStore) (token : String) (createdAt now : Nat)
    (hmem : (token, createdAt) ∈ st)
    (hexp : STATE_TTL_MS < now - createdAt)
    (hs : shopParamOk (jsLookup "shop" q) = true)
    (hc : truthyO (jsLookup "code" q) = true)
    (hqstate : jsLookup "state" q = some (.str token))
    (htok : token ≠ "") :
    (callback secret q st).1 ≠ .invalidState ∧
    Gate.hmacGate ∈ (callback secret q st).2.2 := by
  have hstgate : (truthyO (jsLookup "state" q) &&
      stateHas st ((jsLookup "state" q).getD (.str ""))) = true := by
    rw [hqstate]
    simp [truthyO, truthy, htok, stateHas, storeHas_of_mem hmem]
  cases hv : verifyHmacE secret q with
  | error e =>
    rw [callback_thrown hs hc hstgate hv]
    exact ⟨by simp, (by decide :
      Gate.hmacGate ∈ [Gate.shopGate, Gate.codeGate, Gate.stateGate, Gate.hmacGate])⟩
  | ok p =>
    obtain ⟨b, br⟩ := p
    cases b with
    | false =>
      rw [callback_hmacFail hs hc hstgate hv]
      exact ⟨by simp, (by decide :
        Gate.hmacGate ∈ [Gate.shopGate, Gate.codeGate, Gate.stateGate, Gate.hmacGate])⟩
    | true =>
      rw [callback_validated hs hc hstgate hv]
      exact ⟨by simp, (by decide : Gate.hmacGate ∈
        [Gate.shopGate, Gate.codeGate, Gate.stateGate, Gate.hmacGate, Gate.consumeState])⟩

/-- Witness for the amended C1: the expired-but-unswept token `tok` (age
600001 ms > TTL) still passes the state gate. -/
theorem C1_amended_state_check_ignores_ttl_witness :
    (callback "sec" [("shop", JsVal.str "a.myshopify.com"), ("code", JsVal.str "c"),
      ("state", JsVal.str "tok")] [("tok", 0)]).1 ≠ .invalidState ∧
    Gate.hmacGate ∈ (callback "sec" [("shop", JsVal.str "a.myshopify.com"),
      ("code", JsVal.str "c"), ("state", JsVal.str "tok")] [("tok", 0)]).2.2 :=
  C1_amended_state_check_ignores_ttl "sec"
    [("shop", JsVal.str "a.myshopify.com"), ("code", JsVal.str "c"),
     ("state", JsVal.str "tok")]
    [("tok", 0)] "tok" 0 600001 (by decide) (by decide) (by decide) (by decide)
    (by decide) (by decide)
